import Mathlib

/-!
Verification of the tool-invocation and response-parsing subsystem of an
LLM-driven agent loop (decision.py, action.py, main.py).

The development shallowly embeds the Python source:
* strings are Lean `String`s, with Python `str.strip`, `str.split`,
  substring tests and f-strings modelled by executable Lean functions;
* Python values flowing through the dispatcher are the inductive `PyVal`;
* raised exceptions are `Except PyError`;
* floating-point computation, `eval`, SMTP and file-system effects are
  not statable in a shallow embedding, so they are abstracted into an
  `Oracle` record of opaque semantic functions; every theorem that touches
  them quantifies over the oracle.
-/

namespace Agent

/-- Characters treated as whitespace by Python `str.strip()` on the ASCII
range (the only characters the repository ever strips). -/
def pySpaceChar (c : Char) : Bool :=
  c = ' ' || c = Char.ofNat 9 || c = Char.ofNat 10 || c = Char.ofNat 13 ||
  c = Char.ofNat 11 || c = Char.ofNat 12

/-- The two square-bracket characters, the strip set of `value.strip('[]')`. -/
def bracketChar (c : Char) : Bool :=
  c = '[' || c = ']'

/-- Single and double quote, the strip set of `item.strip("'\"")`. -/
def quoteChar (c : Char) : Bool :=
  c = Char.ofNat 39 || c = Char.ofNat 34

/-- Core of Python `str.strip(set)`: drop characters satisfying `p` from both
ends of a character list. -/
def stripCore (p : Char → Bool) (l : List Char) : List Char :=
  ((l.dropWhile p).reverse.dropWhile p).reverse

/-- Python `s.strip()` (whitespace strip). -/
def pyStripWs (s : String) : String :=
  (stripCore pySpaceChar s.toList).asString

/-- Python `s.strip("'\"")`. -/
def pyStripQuotes (s : String) : String :=
  (stripCore quoteChar s.toList).asString

/-- Python `s.split(sep)` for a single-character separator: splits at every
occurrence, keeping empty fields; `"".split(sep) = [""]`. -/
def splitCharCore (sep : Char) : List Char → List (List Char)
  | [] => [[]]
  | c :: rest =>
    if c = sep then [] :: splitCharCore sep rest
    else
      match splitCharCore sep rest with
      | [] => [[c]]
      | s :: ss => (c :: s) :: ss

/-- String-level wrapper for `splitCharCore`. -/
def pySplitChar (sep : Char) (s : String) : List String :=
  (splitCharCore sep s.toList).map List.asString

/-- Python substring membership `pat in s`, on character lists. -/
def subInfixCore (pat : List Char) : List Char → Bool
  | [] => pat.isEmpty
  | c :: rest => pat.isPrefixOf (c :: rest) || subInfixCore pat rest

/-- Python `pat in s`. -/
def containsSubStr (s pat : String) : Bool :=
  subInfixCore pat.toList s.toList

/-- Python `s.startswith(pre)`. -/
def strStarts (s pre : String) : Bool :=
  pre.toList.isPrefixOf s.toList

/-- Python `s.endswith(suf)`. -/
def strEnds (s suf : String) : Bool :=
  suf.toList.isSuffixOf s.toList

/-- Python `s[n:]` (character-based drop). -/
def strDrop (s : String) (n : Nat) : String :=
  (s.toList.drop n).asString

/-- Python `int(s)` on strings: optional surrounding whitespace, optional
sign, then one or more decimal digits (the only integer literals this
repository ever feeds to `int`). -/
def parseDigitsAcc (acc : Nat) : List Char → Option Nat
  | [] => some acc
  | c :: rest =>
    if c.isDigit then parseDigitsAcc (acc * 10 + (c.toNat - 48)) rest
    else none

/-- Python `int(s)` for a stripped, signed decimal literal. -/
def pyIntOfStr (s : String) : Option Int :=
  match stripCore pySpaceChar s.toList with
  | [] => none
  | c :: rest =>
    if c = '-' then
      match rest with
      | [] => none
      | _ => (parseDigitsAcc 0 rest).map (fun n => -(n : Int))
    else if c = '+' then
      match rest with
      | [] => none
      | _ => (parseDigitsAcc 0 rest).map (fun n => (n : Int))
    else (parseDigitsAcc 0 (c :: rest)).map (fun n => (n : Int))

/-- Python runtime values flowing through the dispatcher. `noneV` is Python
`None`; `textContent ty tx` models the repository's `TextContent` class;
`pydict` models the plain dictionaries returned by `send_email`. -/
inductive PyVal where
  | noneV : PyVal
  | int : Int → PyVal
  | str : String → PyVal
  | list : List PyVal → PyVal
  | textContent : String → String → PyVal
  | pydict : List (String × PyVal) → PyVal

/-- Python exceptions raised by the embedded code. `executionError` is
modelled from the spec: the spec's error taxonomy names a typed
`ExecutionError` wrapper preserving an original cause; the source defines
no such type and never produces this constructor — it exists only so that
the spec's wrapping discipline can be stated and compared with the code. -/
inductive PyError where
  | valueError : String → PyError
  | typeError : String → PyError
  | zeroDivisionError : PyError
  | indexError : PyError
  | executionError : PyError → PyError
deriving DecidableEq

/-- Message text of an exception, Python `str(e)` (detail text of the
non-message constructors is abbreviated). -/
def errMsg : PyError → String
  | .valueError m => m
  | .typeError m => m
  | .zeroDivisionError => "division by zero"
  | .indexError => "list index out of range"
  | .executionError e => errMsg e

/-! ### A faithful-on-its-domain model of `json.loads` + `.get('numbers')`

The repository calls `json.loads` only on texts of the shape
`{"numbers": [i1, i2, ...]}` (possibly with whitespace variations), then
reads the `numbers` key.  `jsonLoadsNumbers` parses exactly that shape and
returns `none` where `json.loads` raises `JSONDecodeError` (any
malformed, truncated or differently-shaped text). -/

/-- Skip JSON whitespace. -/
def skipJsonWs : List Char → List Char
  | c :: rest =>
    if c = ' ' || c = Char.ofNat 9 || c = Char.ofNat 10 || c = Char.ofNat 13 then
      skipJsonWs rest
    else c :: rest
  | [] => []

/-- Parse one or more decimal digits, returning the value and the rest. -/
def parseJsonDigits (acc : Nat) (seen : Bool) : List Char → Option (Nat × List Char)
  | [] => if seen then some (acc, []) else none
  | c :: rest =>
    if c.isDigit then parseJsonDigits (acc * 10 + (c.toNat - 48)) true rest
    else if seen then some (acc, c :: rest) else none

/-- Parse a JSON integer (optional minus sign). -/
def parseJsonInt (l : List Char) : Option (Int × List Char) :=
  match l with
  | c :: rest =>
    if c = '-' then (parseJsonDigits 0 false rest).map (fun p => (-(p.1 : Int), p.2))
    else (parseJsonDigits 0 false l).map (fun p => ((p.1 : Int), p.2))
  | [] => none

/-- Parse the comma-separated tail of a JSON integer array, after the first
element; fuel bounds the recursion (one unit per character is enough). -/
def parseJsonIntTail (fuel : Nat) (acc : List Int) (l : List Char) :
    Option (List Int × List Char) :=
  match fuel with
  | 0 => none
  | fuel + 1 =>
    match skipJsonWs l with
    | ']' :: rest => some (acc.reverse, rest)
    | ',' :: rest =>
      match parseJsonInt (skipJsonWs rest) with
      | some (i, rest2) => parseJsonIntTail fuel (i :: acc) rest2
      | none => none
    | _ => none

/-- Parse a JSON array of integers starting at `[`. -/
def parseJsonIntArray (l : List Char) : Option (List Int × List Char) :=
  match l with
  | '[' :: rest =>
    match skipJsonWs rest with
    | ']' :: rest2 => some ([], rest2)
    | body =>
      match parseJsonInt body with
      | some (i, rest2) => parseJsonIntTail (rest2.length + 1) [i] rest2
      | none => none
  | _ => none

/-- The literal characters of `"numbers"` including the two double quotes. -/
def numbersKeyChars : List Char :=
  [Char.ofNat 34, 'n', 'u', 'm', 'b', 'e', 'r', 's', Char.ofNat 34]

/-- Model of `json.loads(s).get('numbers')` on the JSON shape
`{"numbers": [...]}`; `none` models a raised `JSONDecodeError`. -/
def jsonLoadsNumbers (s : String) : Option (List Int) :=
  match skipJsonWs s.toList with
  | c :: rest =>
    if c = Char.ofNat 123 then
      let afterKey := skipJsonWs rest
      if numbersKeyChars.isPrefixOf afterKey then
        match skipJsonWs (afterKey.drop numbersKeyChars.length) with
        | ':' :: rest2 =>
          match parseJsonIntArray (skipJsonWs rest2) with
          | some (l, rest3) =>
            match skipJsonWs rest3 with
            | c2 :: rest4 =>
              if c2 = Char.ofNat 125 then
                match skipJsonWs rest4 with
                | [] => some l
                | _ => none
              else none
            | [] => none
          | none => none
        | _ => none
      else none
    else none
  | [] => none

/-! ### The stringified-list repair shared by `Action.act` and
`int_list_to_exponential_sum` -/

/-- Core of the repair for a token wrapped in square brackets
(`action.py` lines 176-186 and 581-588): Python
`value.strip('[]')` followed, when nonempty, by
`[item.strip().strip("'\"") for item in clean.split(',')]`. -/
def parseBracketListCore (l : List Char) : List (List Char) :=
  let clean := stripCore bracketChar l
  if clean = [] then []
  else (splitCharCore ',' clean).map
    (fun e => stripCore quoteChar (stripCore pySpaceChar e))

/-- String-level bracket-list repair. -/
def parseBracketList (s : String) : List String :=
  (parseBracketListCore s.toList).map List.asString

/-! ### Protocol Parser (`decision.py`, `Decision.get_decision`) -/

/-- The first line of the response whose stripped form starts with
`FUNCTION_CALL:` (first-match-wins scan of `get_decision`). -/
def functionCallLine (responseText : String) : Option String :=
  ((pySplitChar (Char.ofNat 10) responseText).map pyStripWs).find?
    (fun l => strStarts l "FUNCTION_CALL:")

/-- `Decision.get_decision`: returns `(func_name, params)`.  On a
function-call line, the payload after the first `:` is split on `|` and
each part stripped; with a final-answer directive, or with no recognized
pattern at all, both components are Python `None`. -/
def getDecision (responseText : String) : Option String × Option (List String) :=
  match functionCallLine responseText with
  | some line =>
    let functionInfo := strDrop line 14
    let parts := (pySplitChar '|' functionInfo).map pyStripWs
    (some (parts.headD ""), some parts.tail)
  | none =>
    if containsSubStr responseText "FINAL_ANSWER:" then (none, none)
    else (none, none)

/-! ### Abstract semantics for effects outside the shallow embedding -/

/-- Opaque semantics for the parts of the program a shallow embedding
cannot state: floating-point arithmetic (`float`, `math.exp`, `**` with a
negative exponent, trigonometry), Python `eval`, SMTP, PIL and
`subprocess` effects.  Every theorem about the dispatcher quantifies over
this record, so nothing proved depends on a particular instantiation. -/
structure Oracle where
  /-- Result of `float(a) / float(b)` including conversion/zero-division faults. -/
  divide : PyVal → PyVal → Except PyError PyVal
  /-- `a ** 0.5` guarded body of `sqrt` after the sign check. -/
  sqrtVal : PyVal → Except PyError PyVal
  /-- `float(a) ** (1/3)`. -/
  cbrtVal : PyVal → Except PyError PyVal
  /-- `math.log(a)` after the positivity check. -/
  logVal : PyVal → Except PyError PyVal
  /-- `float(a)` used by the guards of `sqrt` and `log`: the converted value
  paired with its comparisons to zero (`lt0`, `le0`). -/
  floatCmpZero : PyVal → Except PyError (PyVal × Bool × Bool)
  /-- `math.sin(float(a))`, `math.cos(float(a))`, `math.tan(float(a))`. -/
  sinVal : PyVal → Except PyError PyVal
  cosVal : PyVal → Except PyError PyVal
  tanVal : PyVal → Except PyError PyVal
  /-- `int(a) ** int(b)` when the exponent is negative (a Python float). -/
  intPowNeg : Int → Int → Except PyError PyVal
  /-- `sum(math.exp(int(i)) for i in l)` after integer conversion. -/
  expSum : List Int → Except PyError PyVal
  /-- Python `eval(expression)` as used by `calculate`. -/
  evalExpr : PyVal → Except PyError PyVal
  /-- The numeric body of `verify`: `abs(float(eval(e)) - float(x)) < 1e-10`. -/
  verifyNum : PyVal → PyVal → Except PyError Bool
  /-- SMTP transmission in `send_email`: `none` = sent, `some m` = the
  message of the exception raised inside the `try` block. -/
  smtp : PyVal → Option String
  /-- Body of `create_image_with_text` (PIL + filesystem). -/
  createImage : PyVal → PyVal → Except PyError PyVal
  /-- Body of `open_image_in_preview` (filesystem + subprocess). -/
  openPreview : PyVal → Except PyError PyVal

/-! ### Tool bodies (`action.py` static methods) -/

/-- Python `int(v)` for the value kinds the tools receive (float inputs do
not occur on any modelled path). -/
def pyInt : PyVal → Except PyError Int
  | .int i => .ok i
  | .str s =>
    match pyIntOfStr s with
    | some i => .ok i
    | none =>
      .error (.valueError ("invalid literal for int() with base 10: " ++
        String.mk [Char.ofNat 39] ++ s ++ String.mk [Char.ofNat 39]))
  | _ => .error (.typeError "int() argument must be a string or a number")

/-- `add`: `int(a) + int(b)`. -/
def addBody (a b : PyVal) : Except PyError PyVal := do
  let x ← pyInt a
  let y ← pyInt b
  return .int (x + y)

/-- `subtract`: `int(a) - int(b)`. -/
def subtractBody (a b : PyVal) : Except PyError PyVal := do
  let x ← pyInt a
  let y ← pyInt b
  return .int (x - y)

/-- `multiply`: `int(a) * int(b)`. -/
def multiplyBody (a b : PyVal) : Except PyError PyVal := do
  let x ← pyInt a
  let y ← pyInt b
  return .int (x * y)

/-- `power`: `int(a) ** int(b)`; a negative exponent yields a Python float,
delegated to the oracle. -/
def powerBody (o : Oracle) (a b : PyVal) : Except PyError PyVal := do
  let x ← pyInt a
  let y ← pyInt b
  if y < 0 then o.intPowNeg x y
  else return .int (x ^ y.toNat)

/-- `remainder`: `int(a) % int(b)`; Python `%` is floor-modulus
(`Int.fmod`), raising `ZeroDivisionError` on a zero divisor. -/
def remainderBody (a b : PyVal) : Except PyError PyVal := do
  let x ← pyInt a
  let y ← pyInt b
  if y = 0 then throw .zeroDivisionError
  else return .int (Int.fmod x y)

/-- `factorial`: `int(a)`, rejecting negatives with the source's message. -/
def factorialBody (a : PyVal) : Except PyError PyVal := do
  let x ← pyInt a
  if x < 0 then throw (.valueError "Factorial not defined for negative numbers")
  else return .int (Nat.factorial x.toNat)

/-- `sqrt`: converts, rejects negatives, then delegates the root. -/
def sqrtBody (o : Oracle) (a : PyVal) : Except PyError PyVal := do
  let (v, lt0, _) ← o.floatCmpZero a
  if lt0 then throw (.valueError "Cannot calculate square root of negative number")
  else o.sqrtVal v

/-- `log`: converts, rejects non-positives, then delegates. -/
def logBody (o : Oracle) (a : PyVal) : Except PyError PyVal := do
  let (v, _, le0) ← o.floatCmpZero a
  if le0 then throw (.valueError "Cannot calculate log of non-positive number")
  else o.logVal v

/-- `add_list`: `sum(map(int, numbers))`; a string is iterated
character-wise as Python would. -/
def addListBody (numbers : PyVal) : Except PyError PyVal :=
  match numbers with
  | .list xs => do
    let vals ← xs.mapM pyInt
    return .int vals.sum
  | .str s => do
    let vals ← s.toList.mapM (fun c => pyInt (.str (String.mk [c])))
    return .int vals.sum
  | _ => .error (.typeError "object is not iterable")

/-- `strings_to_chars_to_int`: `[ord(ch) for ch in text]`; non-string
input faults as in Python (iteration or `ord` fails). -/
def stringsToCharsBody (text : PyVal) : Except PyError PyVal :=
  match text with
  | .str s => .ok (.list (s.toList.map (fun c => .int (c.toNat : Int))))
  | _ => .error (.typeError "object is not iterable")

/-- The first `n` Fibonacci numbers starting `0, 1`, matching the
imperative construction in `fibonacci_numbers`. -/
def fibFrom (a b : Int) : Nat → List Int
  | 0 => []
  | k + 1 => a :: fibFrom b (a + b) k

/-- `fibonacci_numbers`: `int(n)`; non-positive `n` yields `[]`. -/
def fibonacciBody (n : PyVal) : Except PyError PyVal := do
  let x ← pyInt n
  if x ≤ 0 then return .list []
  else return .list ((fibFrom 0 1 x.toNat).map .int)

/-- `show_reasoning`: prints and returns `"Reasoning shown"`; a
non-iterable argument faults at `enumerate`. -/
def showReasoningBody (steps : PyVal) : Except PyError PyVal :=
  match steps with
  | .str _ => .ok (.str "Reasoning shown")
  | .list _ => .ok (.str "Reasoning shown")
  | _ => .error (.typeError "object is not iterable")

/-- `calculate`: evaluates the expression, catching every exception and
returning either `str(result)` or an `Error: ...` string — it never
raises. `pyStr` below renders `str(result)`. -/
def pyReprCore : PyVal → String
  | .noneV => "None"
  | .int i => toString i
  | .str s => String.mk [Char.ofNat 39] ++ s ++ String.mk [Char.ofNat 39]
  | .list xs => "[" ++ String.intercalate ", " (xs.attach.map (fun x => pyReprCore x.1)) ++ "]"
  | .textContent ty tx => ty ++ ": " ++ tx
  | .pydict entries =>
    String.mk [Char.ofNat 123] ++
      String.intercalate ", "
        (entries.attach.map (fun e =>
          String.mk [Char.ofNat 39] ++ e.1.1 ++ String.mk [Char.ofNat 39] ++ ": " ++
            pyReprCore e.1.2)) ++
      String.mk [Char.ofNat 125]
  decreasing_by
    · have := List.sizeOf_lt_of_mem x.2
      simp only [PyVal.list.sizeOf_spec]
      omega
    · have h1 := List.sizeOf_lt_of_mem e.2
      have h2 : sizeOf e.1.2 < sizeOf e.1 := by
        obtain ⟨x1, x2⟩ := e.1
        simp [Prod.mk.sizeOf_spec]
      simp only [PyVal.pydict.sizeOf_spec]
      omega

/-- Python `str(v)`: like `repr` except on strings themselves. -/
def pyStr : PyVal → String
  | .str s => s
  | v => pyReprCore v

/-- Python `str(True)` / `str(False)`. -/
def pyBoolStr (b : Bool) : String := if b then "True" else "False"

/-- `Action.calculate` (the second, overriding definition in the source):
total — the `try`/`except` converts every fault into an error string. -/
def calculateBody (o : Oracle) (expression : PyVal) : String :=
  match o.evalExpr expression with
  | .ok r => pyStr r
  | .error e => "Error: " ++ errMsg e

/-- `Action.verify` (the second, overriding definition): total — returns
`str(is_correct)` or an error string, never raising. -/
def verifyBody (o : Oracle) (expression expected : PyVal) : String :=
  match o.verifyNum expression expected with
  | .ok b => pyBoolStr b
  | .error e => "Error: " ++ errMsg e

/-- The dictionary `send_email` returns on success or on a caught SMTP
fault; it is never `None`. -/
def sendEmailBody (o : Oracle) (text : PyVal) : PyVal :=
  match o.smtp text with
  | none => .pydict [("content", .list [.textContent "text" "Email sent successfully!"])]
  | some m => .pydict [("content", .list [.textContent "text" ("Error sending mail: " ++ m)])]

/-! ### `int_list_to_exponential_sum` string preprocessing
(`action.py` lines 549-598) -/

/-- Count of a character in a string, Python `s.count(c)`. -/
def countChar (c : Char) (s : String) : Nat :=
  s.toList.count c

/-- Bracket-completion of truncated JSON: append one `]` per unmatched `[`
and one closing brace per unmatched opening brace (Python string repetition
of a negative count is empty, as is Nat subtraction here). -/
def completeJson (s : String) : String :=
  s ++ (List.replicate (countChar '[' s - countChar ']' s) ']').asString ++
    (List.replicate (countChar (Char.ofNat 123) s - countChar (Char.ofNat 125) s)
      (Char.ofNat 125)).asString

/-- The string-input preprocessing of `int_list_to_exponential_sum`: turns
a string argument into the list the numeric loop will iterate; non-string
arguments pass through untouched.  A failed `json.loads` raises
`ValueError` whose message embeds the text passed to the parser — which is
the bracket-completed text whenever completion ran (the completion
re-assigns the variable before parsing). -/
def intListPreprocess (v : PyVal) : Except PyError PyVal :=
  match v with
  | .str s =>
    if strStarts s (String.mk [Char.ofNat 123]) then
      let s2 :=
        if !strEnds s (String.mk [Char.ofNat 125]) &&
            (containsSubStr s (String.mk ([Char.ofNat 34] ++ "numbers".toList ++ [Char.ofNat 34, ':', ' ', '['])) &&
              !strEnds s (String.mk [']', Char.ofNat 125])) then
          completeJson s
        else s
      match jsonLoadsNumbers s2 with
      | some l => .ok (.list (l.map .int))
      | none =>
        .error (.valueError ("Failed to parse JSON string " ++
          String.mk [Char.ofNat 39] ++ s2 ++ String.mk [Char.ofNat 39]))
    else if strStarts s "[" && strEnds s "]" then
      .ok (.list ((parseBracketList s).map .str))
    else if containsSubStr s "," then
      .ok (.list (((pySplitChar ',' s).map
        (fun item => pyStripQuotes (pyStripWs item))).map .str))
    else
      .error (.valueError ("String input must be in list format [x,y,z] or JSON format. Got: " ++
        String.mk [Char.ofNat 39] ++ s ++ String.mk [Char.ofNat 39]))
  | _ => .ok v

/-- `int_list_to_exponential_sum`: preprocess, convert every element with
`int`, then the float exponential sum (oracle). -/
def intListToExponentialSumBody (o : Oracle) (v : PyVal) : Except PyError PyVal := do
  let v2 ← intListPreprocess v
  match v2 with
  | .list xs => do
    let ints ← xs.mapM pyInt
    o.expSum ints
  | .str s => do
    let ints ← s.toList.mapM (fun c => pyInt (.str (String.mk [c])))
    o.expSum ints
  | _ => .error (.typeError "object is not iterable")

/-! ### Tool Registry (`Action.__init__.func_map`) and Dispatcher
(`Action.act`) -/

/-- Outcome of calling a registered callable: a direct value, a coroutine
object that must be awaited to reach a value, or a raised exception.  For
an `async def` tool (`is_async = true`), `ret v` means the coroutine,
once awaited, yields `v`. -/
inductive ExecOutcome where
  | ret : PyVal → ExecOutcome
  | retCoroutine : PyVal → ExecOutcome
  | raises : PyError → ExecOutcome

/-- A registry entry: declared parameter names (excluding any `self`),
whether the callable is `async def`, and its execution semantics on a
bound argument mapping. -/
structure Tool where
  paramNames : List String
  isAsync : Bool
  behavior : List (String × PyVal) → ExecOutcome

/-- Look up a bound argument, Python `**arguments` keyword binding. -/
def getArg (args : List (String × PyVal)) (n : String) : Option PyVal :=
  (args.find? (fun p => p.1 == n)).map (fun p => p.2)

/-- Missing-argument fault raised by Python at call time when `**arguments`
does not supply a declared parameter. -/
def missingArg : ExecOutcome :=
  .raises (.typeError "missing a required argument")

/-- Wrap an `Except`-style body as a callable outcome. -/
def outcomeOf (r : Except PyError PyVal) : ExecOutcome :=
  match r with
  | .ok v => .ret v
  | .error e => .raises e

/-- Lift a unary body over keyword binding. -/
def behavior1 (n1 : String) (f : PyVal → Except PyError PyVal)
    (args : List (String × PyVal)) : ExecOutcome :=
  match getArg args n1 with
  | some a => outcomeOf (f a)
  | none => missingArg

/-- Lift a binary body over keyword binding. -/
def behavior2 (n1 n2 : String) (f : PyVal → PyVal → Except PyError PyVal)
    (args : List (String × PyVal)) : ExecOutcome :=
  match getArg args n1, getArg args n2 with
  | some a, some b => outcomeOf (f a b)
  | _, _ => missingArg

/-- The registry built in `Action.__init__`, in source order.  `send_email`
is the only `async def` entry.  Parameter names are exactly the Python
signatures (all tools are static methods, so there is no `self`). -/
def funcMap (o : Oracle) : List (String × Tool) :=
  [ ("add", ⟨["a", "b"], false, behavior2 "a" "b" addBody⟩),
    ("add_list", ⟨["numbers"], false, behavior1 "numbers" addListBody⟩),
    ("subtract", ⟨["a", "b"], false, behavior2 "a" "b" subtractBody⟩),
    ("multiply", ⟨["a", "b"], false, behavior2 "a" "b" multiplyBody⟩),
    ("divide", ⟨["a", "b"], false, behavior2 "a" "b" o.divide⟩),
    ("power", ⟨["a", "b"], false, behavior2 "a" "b" (powerBody o)⟩),
    ("sqrt", ⟨["a"], false, behavior1 "a" (sqrtBody o)⟩),
    ("cbrt", ⟨["a"], false, behavior1 "a" o.cbrtVal⟩),
    ("factorial", ⟨["a"], false, behavior1 "a" factorialBody⟩),
    ("log", ⟨["a"], false, behavior1 "a" (logBody o)⟩),
    ("remainder", ⟨["a", "b"], false, behavior2 "a" "b" remainderBody⟩),
    ("sin", ⟨["a"], false, behavior1 "a" o.sinVal⟩),
    ("cos", ⟨["a"], false, behavior1 "a" o.cosVal⟩),
    ("tan", ⟨["a"], false, behavior1 "a" o.tanVal⟩),
    ("strings_to_chars_to_int", ⟨["text"], false, behavior1 "text" stringsToCharsBody⟩),
    ("int_list_to_exponential_sum",
      ⟨["int_list"], false, behavior1 "int_list" (intListToExponentialSumBody o)⟩),
    ("fibonacci_numbers", ⟨["n"], false, behavior1 "n" fibonacciBody⟩),
    ("show_reasoning", ⟨["steps"], false, behavior1 "steps" showReasoningBody⟩),
    ("calculate",
      ⟨["expression"], false,
        behavior1 "expression" (fun e => .ok (.str (calculateBody o e)))⟩),
    ("verify",
      ⟨["expression", "expected"], false,
        behavior2 "expression" "expected" (fun e x => .ok (.str (verifyBody o e x)))⟩),
    ("create_image_with_text",
      ⟨["text", "filename"], false, behavior2 "text" "filename" o.createImage⟩),
    ("open_image_in_preview", ⟨["filename"], false, behavior1 "filename" o.openPreview⟩),
    ("send_email",
      ⟨["text"], true, behavior1 "text" (fun t => .ok (sendEmailBody o t))⟩) ]

/-- The registered tool names, in registry order. -/
def toolNames : List String :=
  ["add", "add_list", "subtract", "multiply", "divide", "power", "sqrt", "cbrt",
   "factorial", "log", "remainder", "sin", "cos", "tan", "strings_to_chars_to_int",
   "int_list_to_exponential_sum", "fibonacci_numbers", "show_reasoning", "calculate",
   "verify", "create_image_with_text", "open_image_in_preview", "send_email"]

/-- Raw parameters handed to `Action.act`: an ordered token list or a named
mapping. -/
inductive RawParams where
  | pos : List PyVal → RawParams
  | named : List (String × PyVal) → RawParams

/-- Per-token repair in the positional branch (`action.py` 174-186): a
string wrapped in `[` `]` becomes a list of stripped string elements;
everything else passes through. -/
def repairToken (v : PyVal) : PyVal :=
  match v with
  | .str s =>
    if strStarts s "[" && strEnds s "]" then .list ((parseBracketList s).map .str)
    else v
  | _ => v

/-- Repair of the single positional token in the
`int_list_to_exponential_sum` special case (`action.py` 141-165): bracket
lists as above; a `{`-string containing `"numbers"` is parsed with strict
`json.loads` (no bracket completion here) and on parse failure the
original value is kept. -/
def singleParamRepair (v : PyVal) : PyVal :=
  match v with
  | .str s =>
    if strStarts s "[" && strEnds s "]" then .list ((parseBracketList s).map .str)
    else if strStarts s (String.mk [Char.ofNat 123]) &&
        containsSubStr s (String.mk ([Char.ofNat 34] ++ "numbers".toList ++ [Char.ofNat 34])) then
      match jsonLoadsNumbers s with
      | some l => .list (l.map .int)
      | none => v
    else v
  | _ => v

/-- The named-mapping branch of `Action.act` (lines 118-123): each key is
checked against the signature and the value stored unmodified. -/
def namedBind (funcName : String) (paramNames : List String) :
    List (String × PyVal) → Except PyError (List (String × PyVal))
  | [] => .ok []
  | (n, v) :: rest =>
    if n ∈ paramNames then (namedBind funcName paramNames rest).map (fun a => (n, v) :: a)
    else .error (.valueError ("Unknown parameter " ++ n ++ " for " ++ funcName))

/-- The Argument Normalizer: `Action.act` lines 114-201, producing the
`arguments` mapping or raising. -/
def actNormalize (funcName : String) (paramNames : List String) (params : RawParams) :
    Except PyError (List (String × PyVal)) :=
  match params with
  | .named items => namedBind funcName paramNames items
  | .pos xs =>
    if funcName = "int_list_to_exponential_sum" ∧ paramNames.length = 1 then
      if xs.length > 1 then .ok [(paramNames.headD "", .list xs)]
      else
        match xs with
        | [] => .error .indexError
        | v :: _ => .ok [(paramNames.headD "", singleParamRepair v)]
    else
      if xs.length ≠ paramNames.length then
        .error (.valueError ("Expected " ++ toString paramNames.length ++
          " parameters for " ++ funcName ++ ", got " ++ toString xs.length))
      else .ok ((paramNames.zip xs).map (fun p => (p.1, repairToken p.2)))

/-- The execution step of `Action.act` (lines 203-218).  The sync branch
runs the callable in an executor, awaits a coroutine result if one
appears, and returns the value.  The async branch awaits the coroutine —
but the source has no `return` statement on that path, so after the
`try` blocks the method falls off its end and yields Python `None`;
exceptions still propagate. -/
def execTool (t : Tool) (args : List (String × PyVal)) : Except PyError PyVal :=
  if t.isAsync then
    match t.behavior args with
    | .raises e => .error e
    | .ret _ => .ok .noneV
    | .retCoroutine _ => .ok .noneV
  else
    match t.behavior args with
    | .raises e => .error e
    | .ret v => .ok v
    | .retCoroutine v => .ok v

/-- `Action.act`: registry lookup (`Unknown tool` on a miss), argument
normalization, then execution; both `except` blocks re-raise whatever was
raised, so every fault propagates unchanged. -/
def actRun (o : Oracle) (funcName : String) (params : RawParams) : Except PyError PyVal :=
  match (funcMap o).find? (fun p => p.1 == funcName) with
  | none => .error (.valueError ("Unknown tool: " ++ funcName))
  | some (_, t) =>
    match actNormalize funcName t.paramNames params with
    | .error e => .error e
    | .ok args => execTool t args

/-- A concrete instantiation of the opaque external semantics, used only to
close witness and counterexample statements whose runs never consult the
oracle (registry misses, normalization failures, integer-only tools). -/
def defaultOracle : Oracle where
  divide _ _ := .error (.typeError "float semantics not modelled")
  sqrtVal _ := .error (.typeError "float semantics not modelled")
  cbrtVal _ := .error (.typeError "float semantics not modelled")
  logVal _ := .error (.typeError "float semantics not modelled")
  floatCmpZero _ := .error (.typeError "float semantics not modelled")
  sinVal _ := .error (.typeError "float semantics not modelled")
  cosVal _ := .error (.typeError "float semantics not modelled")
  tanVal _ := .error (.typeError "float semantics not modelled")
  intPowNeg _ _ := .error (.typeError "float semantics not modelled")
  expSum _ := .error (.typeError "float semantics not modelled")
  evalExpr _ := .error (.typeError "eval semantics not modelled")
  verifyNum _ _ := .error (.typeError "eval semantics not modelled")
  smtp _ := none
  createImage _ _ := .error (.typeError "image semantics not modelled")
  openPreview _ := .error (.typeError "image semantics not modelled")

/-! ### Iteration Controller (`main.py`, the `while iteration <
max_iterations` loop)

The model-text collaborator is abstracted as a stream `responses : Nat →
String` indexed by the iteration counter (the real prompt built from the
trace determines the text; quantifying over arbitrary streams subsumes
that dependency).  The dispatcher is a parameter so that the controller
theorems hold for the real `actRun` and any other dispatcher alike.
`last_response` only influences prompt construction and is absorbed into
the stream abstraction; generation-timeout faults end the run exactly as
dispatch faults do and are subsumed by the `failed` exit. -/

/-- Mutable per-run state: the `iteration` counter and the
`iteration_response` trace. -/
structure LoopState where
  iteration : Nat
  trace : List String
deriving DecidableEq

/-- How a run ends: `terminated` is the `FINAL_ANSWER received` break,
`failed` the error break, `budgetExhausted` the exit through the falsified
`while` condition. -/
inductive RunOutcome where
  | terminated
  | failed
  | budgetExhausted
deriving DecidableEq

/-- One trace entry for a successful tool call, `main.py` lines 223-226
(`str(result)` path of a result without a `content` attribute). -/
def toolTraceEntry (iteration : Nat) (funcName : String) (params : List String)
    (result : PyVal) : String :=
  "In the " ++ toString (iteration + 1) ++ " iteration you called " ++ funcName ++
    " with parameters " ++ pyStr (.list (params.map .str)) ++
    " and the function returned " ++ pyStr result ++ "."

/-- The loop body, structurally recursive on the remaining budget
`fuel = max_iterations - iteration`.  Mirrors `main.py` 166-246: parse the
response; a truthy `func_name` dispatches (an exception appends an error
entry and breaks to `failed`; success appends the trace entry and
continues); a falsy `func_name` — explicit `FINAL_ANSWER` or any
unrecognized text — appends `FINAL_ANSWER received: ...` and breaks. -/
def loopAux (dispatch : String → List String → Except PyError PyVal)
    (responses : Nat → String) : Nat → LoopState → LoopState × RunOutcome
  | 0, st => (st, .budgetExhausted)
  | fuel + 1, st =>
    let text := responses st.iteration
    match getDecision text with
    | (some fn, ps) =>
      if fn = "" then
        ({ st with trace := st.trace ++ ["FINAL_ANSWER received: " ++ text] }, .terminated)
      else
        match dispatch fn (ps.getD []) with
        | .ok r =>
          loopAux dispatch responses fuel
            { iteration := st.iteration + 1,
              trace := st.trace ++ [toolTraceEntry st.iteration fn (ps.getD []) r] }
        | .error e =>
          ({ st with
              trace := st.trace ++
                ["Error in iteration " ++ toString (st.iteration + 1) ++ ": " ++ errMsg e] },
            .failed)
    | (none, _) =>
      ({ st with trace := st.trace ++ ["FINAL_ANSWER received: " ++ text] }, .terminated)

/-- A full run of `main`: fresh state, budget `maxIterations`. -/
def runMain (dispatch : String → List String → Except PyError PyVal)
    (responses : Nat → String) (maxIterations : Nat) : LoopState × RunOutcome :=
  loopAux dispatch responses maxIterations ⟨0, []⟩

/-- The dispatcher `main.py` actually wires into the loop: protocol
parameters arrive as strings and `Action.act` receives them as a Python
list. -/
def mainDispatch (o : Oracle) (funcName : String) (params : List String) :
    Except PyError PyVal :=
  actRun o funcName (.pos (params.map .str))

/-- A concrete oracle for the C10 witness: evaluation succeeds with `4`
while the numeric body of `verify` raises `ZeroDivisionError`. -/
def witOracle : Oracle :=
  { defaultOracle with
      evalExpr := fun _ => .ok (.int 4),
      verifyNum := fun _ _ => .error .zeroDivisionError }

/-- Join a list of strings with the separator `", "`, the inverse shape of
the comma split — used to state the C9 round trip. -/
def joinCommaSpace : List String → String
  | [] => ""
  | [e] => e
  | e :: rest => e ++ ", " ++ joinCommaSpace rest

/-- Character-list version of `joinCommaSpace`. -/
def joinCore : List (List Char) → List Char
  | [] => []
  | [e] => e
  | e :: rest => e ++ ',' :: ' ' :: joinCore rest

/-- A character that survives the bracket-list repair untouched: not a
bracket, quote, whitespace or comma. -/
def plainTokenChar (c : Char) : Bool :=
  !(bracketChar c || quoteChar c || pySpaceChar c || c = ',')

/-! ## Claim theorems -/

/-- C7: for every tool name not present in the registry, `Action.act`
fails with the unknown-tool error, and — since the failure is produced
before any callable is consulted — the result is independent of every
tool's execution semantics (no callable is ever executed). -/
theorem claim7_unknown_tool_rejected (o o2 : Oracle) (name : String) (params : RawParams)
    (h : name ∉ toolNames) :
    actRun o name params = .error (.valueError ("Unknown tool: " ++ name)) ∧
    actRun o name params = actRun o2 name params := by
  have hfind : ∀ o3 : Oracle, (funcMap o3).find? (fun p => p.1 == name) = none := by
    intro o3
    apply List.find?_eq_none.mpr
    intro x hx
    have hx1 : x.1 ∈ (funcMap o3).map Prod.fst := List.mem_map_of_mem _ hx
    have hmap : (funcMap o3).map Prod.fst = toolNames := rfl
    rw [hmap] at hx1
    simp only [beq_iff_eq]
    intro hcontr
    exact h (hcontr ▸ hx1)
  constructor
  · unfold actRun
    rw [hfind o]
  · unfold actRun
    rw [hfind o, hfind o2]

/-- Witness for C7 at the concrete unregistered name `frobnicate`. -/
theorem claim7_witness :
    actRun defaultOracle "frobnicate" (.pos []) =
      .error (.valueError ("Unknown tool: " ++ "frobnicate")) :=
  (claim7_unknown_tool_rejected defaultOracle defaultOracle "frobnicate" (.pos [])
    (by decide)).1

/-- C2 (code bug): the sync branch of `Action.act` returns its (possibly
further-awaited) result, but the `async def` branch has no `return`
statement, so for every asynchronous tool — concretely `send_email` —
`act` awaits the coroutine and then falls off the end of the method,
handing the caller Python `None` instead of the dictionary the tool
produced (which is never `None`). -/
theorem claim2_async_result_dropped (o : Oracle) (msg : String) :
    actRun o "send_email" (.pos [.str msg]) = .ok .noneV ∧
    (∀ (o2 : Oracle) (t : PyVal), sendEmailBody o2 t ≠ .noneV) ∧
    (∀ (t : Tool) (args : List (String × PyVal)) (v : PyVal),
      t.isAsync = false → t.behavior args = .retCoroutine v → execTool t args = .ok v) := by
  refine ⟨rfl, ?_, ?_⟩
  · intro o2 t hcontr
    unfold sendEmailBody at hcontr
    rcases hsm : o2.smtp t with _ | m <;> rw [hsm] at hcontr <;> simp at hcontr
  · intro t args v hasync hb
    unfold execTool
    rw [hasync, hb]
    rfl

/-- C3 counterexample: `sqrt` is a registered single-parameter tool, yet a
two-token ordered sequence is not folded — it raises the argument-count
error, refuting the for-any-single-parameter-tool claim. -/
theorem claim3_counterexample :
    actRun defaultOracle "sqrt" (.pos [.str "1", .str "2"]) =
      .error (.valueError "Expected 1 parameters for sqrt, got 2") := rfl

/-- C3 (amended): multi-token folding onto a single parameter happens
exactly when the tool name is `int_list_to_exponential_sum`; every other
single-parameter tool fails with the argument-count error on more than
one token. -/
theorem claim3_folding_only_for_exp_sum (funcName p : String) (xs : List PyVal)
    (hlen : xs.length > 1) :
    (funcName = "int_list_to_exponential_sum" →
      actNormalize funcName [p] (.pos xs) = .ok [(p, .list xs)]) ∧
    (funcName ≠ "int_list_to_exponential_sum" →
      actNormalize funcName [p] (.pos xs) =
        .error (.valueError ("Expected " ++ toString (1 : Nat) ++ " parameters for " ++
          funcName ++ ", got " ++ toString xs.length))) := by
  constructor
  · intro hname
    subst hname
    simp [actNormalize, hlen]
  · intro hname
    simp [actNormalize, hname, show xs.length ≠ 1 by omega]

/-- Witness for C3: five tokens fold for the special tool (the spec's own
scenario), while `add_list` — also single-parameter — raises. -/
theorem claim3_witness :
    actNormalize "int_list_to_exponential_sum" ["int_list"]
        (.pos [.str "7", .str "3", .str "1", .str "0", .str "9"]) =
      .ok [("int_list", .list [.str "7", .str "3", .str "1", .str "0", .str "9"])] ∧
    actNormalize "add_list" ["numbers"] (.pos [.str "1", .str "2"]) =
      .error (.valueError ("Expected " ++ toString (1 : Nat) ++
        " parameters for " ++ "add_list" ++ ", got " ++ toString (2 : Nat))) :=
  ⟨(claim3_folding_only_for_exp_sum "int_list_to_exponential_sum" "int_list"
      [.str "7", .str "3", .str "1", .str "0", .str "9"] (by decide)).1 rfl,
   (claim3_folding_only_for_exp_sum "add_list" "numbers" [.str "1", .str "2"]
      (by decide)).2 (by decide)⟩

/-- C4 counterexample: in the named-mapping branch a string value shaped
like a bracketed list is NOT repaired — it is bound verbatim, not as the
ordered sequence the claim requires. -/
theorem claim4_counterexample :
    actNormalize "int_list_to_exponential_sum" ["int_list"]
        (.named [("int_list", .str "[1, 2]")]) =
      .ok [("int_list", .str "[1, 2]")] ∧
    PyVal.str "[1, 2]" ≠ .list [.str "1", .str "2"] :=
  ⟨rfl, fun hc => PyVal.noConfusion hc⟩

/-- C4 (amended): for a named mapping, a key outside the declared
parameter names fails naming the first offending key, and otherwise every
value — string-typed or not — passes through completely unmodified (no
string-collection repair on this path). -/
theorem claim4_named_values_unmodified (funcName : String) (paramNames : List String)
    (items pre post : List (String × PyVal)) (n : String) (v : PyVal) :
    ((∀ p ∈ items, p.1 ∈ paramNames) →
      actNormalize funcName paramNames (.named items) = .ok items) ∧
    ((∀ p ∈ pre, p.1 ∈ paramNames) → n ∉ paramNames →
      actNormalize funcName paramNames (.named (pre ++ (n, v) :: post)) =
        .error (.valueError ("Unknown parameter " ++ n ++ " for " ++ funcName))) := by
  constructor
  · show (∀ p ∈ items, p.1 ∈ paramNames) → namedBind funcName paramNames items = .ok items
    induction items with
    | nil => intro _; rfl
    | cons q rest ih =>
      intro hall
      obtain ⟨qn, qv⟩ := q
      have hq : qn ∈ paramNames := hall (qn, qv) (List.mem_cons_self _ _)
      have hr := ih (fun p hp => hall p (List.mem_cons_of_mem _ hp))
      simp only [namedBind]
      rw [if_pos hq, hr]
      rfl
  · show (∀ p ∈ pre, p.1 ∈ paramNames) → n ∉ paramNames →
      namedBind funcName paramNames (pre ++ (n, v) :: post) =
        .error (.valueError ("Unknown parameter " ++ n ++ " for " ++ funcName))
    induction pre with
    | nil =>
      intro _ hn
      rw [List.nil_append]
      simp only [namedBind]
      exact if_neg hn
    | cons q rest ih =>
      intro hpre hn
      obtain ⟨qn, qv⟩ := q
      have hq : qn ∈ paramNames := hpre (qn, qv) (List.mem_cons_self _ _)
      have hr := ih (fun p hp => hpre p (List.mem_cons_of_mem _ hp)) hn
      rw [List.cons_append]
      simp only [namedBind]
      rw [if_pos hq, hr]
      rfl

/-- Witness for C4: valid keys pass values (including a string) through
untouched; an invalid key is rejected by name. -/
theorem claim4_witness :
    actNormalize "verify" ["expression", "expected"]
        (.named [("expression", .str "1+1"), ("expected", .str "2")]) =
      .ok [("expression", .str "1+1"), ("expected", .str "2")] ∧
    actNormalize "verify" ["expression", "expected"]
        (.named [("expression", .str "1+1"), ("oops", .int 3)]) =
      .error (.valueError ("Unknown parameter " ++ "oops" ++ " for " ++ "verify")) :=
  ⟨(claim4_named_values_unmodified "verify" ["expression", "expected"]
      [("expression", .str "1+1"), ("expected", .str "2")] [] [] "x" .noneV).1
      (by simp),
   (claim4_named_values_unmodified "verify" ["expression", "expected"] []
      [("expression", .str "1+1")] [] "oops" (.int 3)).2
      (by simp) (by decide)⟩

/-- C5 counterexample: a raising tool body (`factorial` on a negative
input) reaches the caller as the original `ValueError`, not wrapped in any
typed `ExecutionError`. -/
theorem claim5_counterexample :
    actRun defaultOracle "factorial" (.pos [.str "-5"]) =
      .error (.valueError "Factorial not defined for negative numbers") ∧
    (Except.error (PyError.valueError "Factorial not defined for negative numbers") :
        Except PyError PyVal) ≠
      .error (.executionError (.valueError "Factorial not defined for negative numbers")) := by
  refine ⟨rfl, fun hc => ?_⟩
  injection hc with hc2
  exact PyError.noConfusion hc2

/-- C5 (amended): any fault raised during a tool's execution is re-raised
to the caller unchanged — both `except` blocks re-raise, so the Dispatcher
never swallows an exception and never converts a raising execution into a
success; no `ExecutionError` wrapper exists in the code. -/
theorem claim5_fault_reraised_unchanged (o : Oracle) (fn fn2 : String) (t : Tool)
    (params : RawParams) (args : List (String × PyVal)) (e : PyError)
    (h1 : (funcMap o).find? (fun p => p.1 == fn) = some (fn2, t))
    (h2 : actNormalize fn t.paramNames params = .ok args)
    (h3 : t.behavior args = .raises e) :
    actRun o fn params = .error e := by
  simp only [actRun, h1, h2, execTool, h3]
  cases t.isAsync <;> rfl

/-- Witness for C5 at `factorial(-5)`. -/
theorem claim5_witness :
    actRun defaultOracle "factorial" (.pos [.str "-5"]) =
      .error (.valueError "Factorial not defined for negative numbers") :=
  claim5_fault_reraised_unchanged defaultOracle "factorial" "factorial"
    ⟨["a"], false, behavior1 "a" factorialBody⟩ (.pos [.str "-5"])
    [("a", .str "-5")] (.valueError "Factorial not defined for negative numbers")
    rfl rfl rfl

/-- C1 counterexample: text with neither directive parses to exactly the
same `(None, None)` pair as an explicit final-answer directive, and the
controller run on such text ends `terminated` with a
`FINAL_ANSWER received` trace entry — not `failed`. -/
theorem claim1_counterexample :
    getDecision "I am not sure what to do next" = (none, none) ∧
    getDecision "FINAL_ANSWER: 42" = (none, none) ∧
    runMain (mainDispatch defaultOracle) (fun _ => "I am not sure what to do next") 10 =
      (⟨0, ["FINAL_ANSWER received: I am not sure what to do next"]⟩, .terminated) ∧
    RunOutcome.terminated ≠ RunOutcome.failed :=
  ⟨rfl, rfl, rfl, fun hc => RunOutcome.noConfusion hc⟩

/-- C1 (amended): for model text containing neither a `FUNCTION_CALL` line
nor the `FINAL_ANSWER` keyword, the parser returns `(None, None)` — a pair
indistinguishable from its output for an explicit final-answer directive —
and the Iteration Controller therefore treats the text as a final answer:
it appends a `FINAL_ANSWER received` trace entry and stops in the
successful `terminated` outcome, never `failed`. -/
theorem claim1_unrecognized_treated_as_final (text : String)
    (dispatch : String → List String → Except PyError PyVal) (maxIterations : Nat)
    (h1 : functionCallLine text = none)
    (h2 : containsSubStr text "FINAL_ANSWER:" = false)
    (h3 : 0 < maxIterations) :
    getDecision text = (none, none) ∧
    runMain dispatch (fun _ => text) maxIterations =
      (⟨0, ["FINAL_ANSWER received: " ++ text]⟩, .terminated) := by
  have hdec : getDecision text = (none, none) := by
    simp [getDecision, h1, h2]
  refine ⟨hdec, ?_⟩
  obtain ⟨k, rfl⟩ : ∃ k, maxIterations = k + 1 := ⟨maxIterations - 1, by omega⟩
  show loopAux dispatch (fun _ => text) (k + 1) ⟨0, []⟩ = _
  simp [loopAux, hdec]

/-- Witness for C1 on the concrete directive-free text `try again`. -/
theorem claim1_witness :
    getDecision "try again" = (none, none) ∧
    runMain (mainDispatch defaultOracle) (fun _ => "try again") 10 =
      (⟨0, ["FINAL_ANSWER received: " ++ "try again"]⟩, .terminated) :=
  claim1_unrecognized_treated_as_final "try again" (mainDispatch defaultOracle) 10
    rfl rfl (by decide)

/-- Helper for C8: a run whose every in-budget response parses to a truthy
tool call that dispatches successfully consumes its entire fuel and exits
through the falsified `while` condition. -/
theorem loopAux_budget_exhausted
    (dispatch : String → List String → Except PyError PyVal)
    (responses : Nat → String) :
    ∀ (fuel : Nat) (st : LoopState),
      (∀ i, st.iteration ≤ i → i < st.iteration + fuel →
        ∃ fn ps r, getDecision (responses i) = (some fn, some ps) ∧ fn ≠ "" ∧
          dispatch fn ps = .ok r) →
      (loopAux dispatch responses fuel st).2 = .budgetExhausted ∧
      (loopAux dispatch responses fuel st).1.iteration = st.iteration + fuel := by
  intro fuel
  induction fuel with
  | zero => intro st _; exact ⟨rfl, rfl⟩
  | succ k ih =>
    intro st h
    obtain ⟨fn, ps, r, hdec, hfn, hdisp⟩ := h st.iteration (Nat.le_refl _) (by omega)
    have hstep := ih
      { iteration := st.iteration + 1,
        trace := st.trace ++ [toolTraceEntry st.iteration fn ps r] }
      (fun i hlo hhi => h i (by simp at hlo; omega) (by simp at hhi ⊢; omega))
    simp only [loopAux, hdec, if_neg hfn, Option.getD_some, hdisp]
    refine ⟨hstep.1, ?_⟩
    rw [hstep.2]
    simp
    omega

/-- C8: after `max_iterations` cycles without a terminal directive the loop
stops with the counter equal to the budget, exiting through the falsified
`while` condition — an outcome distinct from both the `terminated`
(explicit final answer) and `failed` (tool or parse error) exits. -/
theorem claim8_budget_exhaustion
    (dispatch : String → List String → Except PyError PyVal)
    (responses : Nat → String) (maxIterations : Nat)
    (h : ∀ i, i < maxIterations →
      ∃ fn ps r, getDecision (responses i) = (some fn, some ps) ∧ fn ≠ "" ∧
        dispatch fn ps = .ok r) :
    (runMain dispatch responses maxIterations).2 = .budgetExhausted ∧
    (runMain dispatch responses maxIterations).1.iteration = maxIterations ∧
    RunOutcome.budgetExhausted ≠ RunOutcome.terminated ∧
    RunOutcome.budgetExhausted ≠ RunOutcome.failed := by
  have hb := loopAux_budget_exhausted dispatch responses maxIterations ⟨0, []⟩
    (fun i _ hhi => h i (by simpa using hhi))
  exact ⟨hb.1, by simpa using hb.2,
    fun hc => RunOutcome.noConfusion hc, fun hc => RunOutcome.noConfusion hc⟩

/-- Witness for C8: ten cycles of `FUNCTION_CALL: add|2|3` through the real
dispatcher exhaust a budget of ten. -/
theorem claim8_witness :
    (runMain (mainDispatch defaultOracle) (fun _ => "FUNCTION_CALL: add|2|3") 10).2 =
      .budgetExhausted ∧
    (runMain (mainDispatch defaultOracle) (fun _ => "FUNCTION_CALL: add|2|3") 10).1.iteration =
      10 := by
  have h := claim8_budget_exhaustion (mainDispatch defaultOracle)
    (fun _ => "FUNCTION_CALL: add|2|3") 10
    (fun i _ => ⟨"add", ["2", "3"], .int 5, rfl, by decide, rfl⟩)
  exact ⟨h.1, h.2.1⟩

/-- C10: `calculate` and `verify` are total string-returning functions —
their `try`/`except` blocks convert every fault of the evaluation into an
`Error: ...` string (so no exception ever propagates to the caller), and a
successful evaluation is returned as `str(result)` (for `verify`,
`str(is_correct)`). -/
theorem claim10_calculate_verify_never_raise :
    (∀ (o : Oracle) (expr : PyVal) (err : PyError),
      o.evalExpr expr = .error err →
      ∃ rest, calculateBody o expr = "Error: " ++ rest) ∧
    (∀ (o : Oracle) (expr v : PyVal),
      o.evalExpr expr = .ok v → calculateBody o expr = pyStr v) ∧
    (∀ (o : Oracle) (e x : PyVal) (err : PyError),
      o.verifyNum e x = .error err →
      ∃ rest, verifyBody o e x = "Error: " ++ rest) ∧
    (∀ (o : Oracle) (e x : PyVal) (b : Bool),
      o.verifyNum e x = .ok b → verifyBody o e x = pyBoolStr b) := by
  refine ⟨?_, ?_, ?_, ?_⟩
  · intro o expr err h
    exact ⟨errMsg err, by simp [calculateBody, h]⟩
  · intro o expr v h
    simp [calculateBody, h]
  · intro o e x err h
    exact ⟨errMsg err, by simp [verifyBody, h]⟩
  · intro o e x b h
    simp [verifyBody, h]

/-- Witness for C10: a successful `calculate` returns `str(result)` and a
raising `verify` returns an `Error:`-prefixed string. -/
theorem claim10_witness :
    calculateBody witOracle (.str "2+2") = pyStr (.int 4) ∧
    ∃ rest, verifyBody witOracle (.str "1/0") (.int 1) = "Error: " ++ rest :=
  ⟨claim10_calculate_verify_never_raise.2.1 witOracle (.str "2+2") (.int 4) rfl,
   claim10_calculate_verify_never_raise.2.2.1 witOracle (.str "1/0") (.int 1)
     .zeroDivisionError rfl⟩

/-- C6 counterexample: `\x7b"numbers":[1,2,3` (no space after the colon)
is a JSON-object string with a `numbers` key missing its trailing closers
and otherwise well-formed, yet the repair gate — which requires the exact
substring `"numbers": [` — does not fire: the call raises instead of
extracting `[1,2,3]`, while the corresponding well-formed input parses
fine. -/
theorem claim6_counterexample :
    intListPreprocess (.str "\x7b\"numbers\":[1,2,3") =
      .error (.valueError ("Failed to parse JSON string " ++
        String.mk [Char.ofNat 39] ++ "\x7b\"numbers\":[1,2,3" ++ String.mk [Char.ofNat 39])) ∧
    intListPreprocess (.str "\x7b\"numbers\":[1,2,3]\x7d") =
      .ok (.list [.int 1, .int 2, .int 3]) :=
  ⟨rfl, rfl⟩

/-- C6 (amended): the bracket-count repair fires only when the text starts
with an opening brace, does not end with a closing brace (nor with the
two-character sequence bracket-brace) and contains the exact substring
`"numbers": [` — in that case the extraction behaves exactly as strict
parsing of the closer-completed text: the `numbers` value of the completed
(well-formed) text on success, and on parse failure a `ValueError` whose
message carries the completed text (not the original). -/
theorem claim6_repair_equals_completed_parse (s : String)
    (h1 : strStarts s (String.mk [Char.ofNat 123]) = true)
    (h2 : strEnds s (String.mk [Char.ofNat 125]) = false)
    (h3 : containsSubStr s (String.mk ([Char.ofNat 34] ++ "numbers".toList ++
      [Char.ofNat 34, ':', ' ', '['])) = true)
    (h4 : strEnds s (String.mk [']', Char.ofNat 125]) = false) :
    intListPreprocess (.str s) =
      (match jsonLoadsNumbers (completeJson s) with
       | some l => .ok (.list (l.map .int))
       | none => .error (.valueError ("Failed to parse JSON string " ++
           String.mk [Char.ofNat 39] ++ completeJson s ++ String.mk [Char.ofNat 39]))) := by
  simp only [intListPreprocess, h1, h2, h3, h4, Bool.not_false, Bool.and_self,
    Bool.true_and, Bool.and_true, if_true]

/-- Witness for C6 on the truncated text `\x7b"numbers": [1, 2, 3`: the
repair completes it and extracts the same value the well-formed text
yields. -/
theorem claim6_witness :
    intListPreprocess (.str "\x7b\"numbers\": [1, 2, 3") =
      .ok (.list [.int 1, .int 2, .int 3]) ∧
    intListPreprocess (.str "\x7b\"numbers\": [1, 2, 3]\x7d") =
      .ok (.list [.int 1, .int 2, .int 3]) := by
  constructor
  · rw [claim6_repair_equals_completed_parse "\x7b\"numbers\": [1, 2, 3" rfl rfl rfl rfl]
    rfl
  · rfl

/-! Helper lemmas for C9: behaviour of strip and split on clean tokens. -/

/-- `dropWhile` is the identity when no character satisfies the set. -/
theorem dropWhile_no (p : Char → Bool) (l : List Char)
    (h : ∀ c ∈ l, p c = false) : l.dropWhile p = l := by
  cases l with
  | nil => rfl
  | cons c rest =>
    exact List.dropWhile_cons_of_neg (by simp [h c (List.mem_cons_self _ _)])

/-- Stripping a set absent from the string is the identity. -/
theorem stripCore_no (p : Char → Bool) (l : List Char)
    (h : ∀ c ∈ l, p c = false) : stripCore p l = l := by
  unfold stripCore
  rw [dropWhile_no p l h, dropWhile_no p l.reverse (fun c hc => h c (List.mem_reverse.mp hc)),
    List.reverse_reverse]

/-- Stripping removes a single leading set-character. -/
theorem stripCore_cons_sat (p : Char → Bool) (c : Char) (l : List Char)
    (hc : p c = true) (h : ∀ d ∈ l, p d = false) :
    stripCore p (c :: l) = l := by
  unfold stripCore
  rw [List.dropWhile_cons_of_pos hc, dropWhile_no p l h,
    dropWhile_no p l.reverse (fun d hd => h d (List.mem_reverse.mp hd)), List.reverse_reverse]

/-- Stripping removes exactly a one-character wrap around clean content. -/
theorem stripCore_wrap (p : Char → Bool) (a b : Char) (m : List Char)
    (ha : p a = true) (hb : p b = true) (h : ∀ c ∈ m, p c = false) (hm : m ≠ []) :
    stripCore p (a :: (m ++ [b])) = m := by
  unfold stripCore
  rw [List.dropWhile_cons_of_pos ha]
  obtain ⟨c, m2, rfl⟩ : ∃ c m2, m = c :: m2 := by
    cases m with
    | nil => exact absurd rfl hm
    | cons c m2 => exact ⟨c, m2, rfl⟩
  rw [List.cons_append,
    List.dropWhile_cons_of_neg (by simp [h c (List.mem_cons_self _ _)]),
    show (c :: (m2 ++ [b])).reverse = b :: (c :: m2).reverse by simp,
    List.dropWhile_cons_of_pos hb,
    dropWhile_no p (c :: m2).reverse (fun d hd => h d (List.mem_reverse.mp hd)),
    List.reverse_reverse]

/-- A separator-free string splits into a single field. -/
theorem splitCharCore_no_sep (sep : Char) :
    ∀ l : List Char, (∀ c ∈ l, c ≠ sep) → splitCharCore sep l = [l] := by
  intro l
  induction l with
  | nil => intro _; rfl
  | cons c rest ih =>
    intro h
    unfold splitCharCore
    rw [if_neg (h c (List.mem_cons_self _ _)),
      ih (fun d hd => h d (List.mem_cons_of_mem _ hd))]

/-- Splitting across the first separator occurrence. -/
theorem splitCharCore_append_sep (sep : Char) (ys : List Char) :
    ∀ xs : List Char, (∀ c ∈ xs, c ≠ sep) →
      splitCharCore sep (xs ++ sep :: ys) = xs :: splitCharCore sep ys := by
  intro xs
  induction xs with
  | nil =>
    intro _
    show splitCharCore sep (sep :: ys) = [] :: splitCharCore sep ys
    conv_lhs => rw [splitCharCore]
    rw [if_pos rfl]
  | cons c rest ih =>
    intro h
    rw [List.cons_append]
    conv_lhs => rw [splitCharCore]
    rw [if_neg (h c (List.mem_cons_self _ _)),
      ih (fun d hd => h d (List.mem_cons_of_mem _ hd))]

/-- String-level append agrees with character-list append. -/
theorem strToList_append (a b : String) : (a ++ b).toList = a.toList ++ b.toList := by
  cases a
  cases b
  rfl

/-- `joinCommaSpace` agrees with its character-list core. -/
theorem joinCommaSpace_toList : ∀ elems : List String,
    (joinCommaSpace elems).toList = joinCore (elems.map String.toList) := by
  intro elems
  induction elems with
  | nil => rfl
  | cons e rest ih =>
    cases rest with
    | nil => rfl
    | cons f fs =>
      show (e ++ ", " ++ joinCommaSpace (f :: fs)).toList = _
      rw [strToList_append, strToList_append, ih]
      simp [joinCore, List.append_assoc]

/-- Characters of a join are characters of its fields or separators. -/
theorem joinCore_chars (P : Char → Bool) (hcomma : P ',' = false)
    (hspace : P ' ' = false) :
    ∀ ll : List (List Char), (∀ l ∈ ll, ∀ c ∈ l, P c = false) →
      ∀ c ∈ joinCore ll, P c = false := by
  intro ll
  induction ll with
  | nil => intro _ c hc; simp [joinCore] at hc
  | cons e rest ih =>
    intro h c hc
    cases rest with
    | nil => exact h e (List.mem_cons_self _ _) c hc
    | cons f fs =>
      rcases List.mem_append.mp hc with h1 | h2
      · exact h e (List.mem_cons_self _ _) c h1
      · rcases List.mem_cons.mp h2 with rfl | h3
        · exact hcomma
        · rcases List.mem_cons.mp h3 with rfl | h4
          · exact hspace
          · exact ih (fun l hl => h l (List.mem_cons_of_mem _ hl)) c h4

/-- A join headed by a nonempty field is nonempty. -/
theorem joinCore_cons_ne_nil (e : List Char) (es : List (List Char)) (he : e ≠ []) :
    joinCore (e :: es) ≠ [] := by
  cases es with
  | nil => exact he
  | cons f fs => simp [joinCore, he]

/-- Splitting a comma-space join on commas recovers the fields, later ones
with their leading pad space. -/
theorem splitCharCore_joinCore :
    ∀ (e : List Char) (es : List (List Char)),
      (∀ c ∈ e, c ≠ ',') → (∀ l ∈ es, ∀ c ∈ l, c ≠ ',') →
      splitCharCore ',' (joinCore (e :: es)) = e :: es.map (fun f => ' ' :: f) := by
  intro e es
  induction es generalizing e with
  | nil =>
    intro he _
    exact splitCharCore_no_sep ',' e he
  | cons f fs ih =>
    intro he hes
    show splitCharCore ',' (e ++ ',' :: ' ' :: joinCore (f :: fs)) = _
    rw [splitCharCore_append_sep ',' _ e he]
    congr 1
    have hrest := ih f (hes f (List.mem_cons_self _ _))
      (fun l hl => hes l (List.mem_cons_of_mem _ hl))
    unfold splitCharCore
    rw [if_neg (by decide : (' ' : Char) ≠ ','), hrest]
    rfl

/-- Unpacking of the clean-token hypothesis. -/
theorem plainTokenChar_spec (c : Char) (h : plainTokenChar c = true) :
    bracketChar c = false ∧ quoteChar c = false ∧ pySpaceChar c = false ∧ c ≠ ',' := by
  unfold plainTokenChar at h
  simp only [Bool.not_eq_eq_eq_not, Bool.not_true, Bool.or_eq_false_iff] at h
  refine ⟨h.1.1.1, h.1.1.2, h.1.2, ?_⟩
  have := h.2
  simp at this
  exact this

/-- C9: the Argument Normalizer turns every bracket-wrapped token built
from clean elements back into exactly that ordered element sequence —
brackets stripped, fields split on commas, padding and quotes stripped —
and turns the bare `[]` token into the empty sequence. -/
theorem claim9_bracket_token_round_trip (elems : List String)
    (h : ∀ e ∈ elems, e ≠ "" ∧ ∀ c ∈ e.toList, plainTokenChar c = true) :
    parseBracketList ("[" ++ joinCommaSpace elems ++ "]") = elems ∧
    parseBracketList "[]" = [] := by
  refine ⟨?_, rfl⟩
  cases elems with
  | nil => rfl
  | cons e es =>
    have hchars : ∀ x ∈ (e :: es).map String.toList, ∀ c ∈ x,
        bracketChar c = false ∧ quoteChar c = false ∧ pySpaceChar c = false ∧ c ≠ ',' := by
      intro x hx c hc
      obtain ⟨e2, he2, rfl⟩ := List.mem_map.mp hx
      exact plainTokenChar_spec c ((h e2 he2).2 c hc)
    have hne : e.toList ≠ [] := by
      intro hcontr
      have : e = "" := by
        have := congrArg List.asString hcontr
        rwa [String.asString_toList] at this
      exact (h e (List.mem_cons_self _ _)).1 this
    set ll := (e :: es).map String.toList with hll
    have htl : ("[" ++ joinCommaSpace (e :: es) ++ "]").toList =
        '[' :: (joinCore ll ++ [']']) := by
      rw [strToList_append, strToList_append, joinCommaSpace_toList]
      rfl
    have hjoin_ne : joinCore ll ≠ [] := joinCore_cons_ne_nil _ _ hne
    have hjoin_nobr : ∀ c ∈ joinCore ll, bracketChar c = false :=
      joinCore_chars bracketChar (by decide) (by decide) ll
        (fun l hl c hc => (hchars l hl c hc).1)
    have hstrip : stripCore bracketChar (('[' : Char) :: (joinCore ll ++ [']'])) =
        joinCore ll :=
      stripCore_wrap bracketChar '[' ']' (joinCore ll) (by decide) (by decide)
        hjoin_nobr hjoin_ne
    have hmem_head : e.toList ∈ ll := by simp [hll]
    have hmem_tail : ∀ f ∈ es.map String.toList, f ∈ ll := by
      intro f hf
      exact List.mem_cons_of_mem _ hf
    have hsplit : splitCharCore ',' (joinCore ll) =
        e.toList :: (es.map String.toList).map (fun f => ' ' :: f) :=
      splitCharCore_joinCore e.toList (es.map String.toList)
        (fun c hc => (hchars e.toList hmem_head c hc).2.2.2)
        (fun l hl c hc => (hchars l (hmem_tail l hl) c hc).2.2.2)
    have htail : ∀ f ∈ es.map String.toList,
        stripCore quoteChar (stripCore pySpaceChar (' ' :: f)) = f := by
      intro f hf
      rw [stripCore_cons_sat pySpaceChar ' ' f (by decide)
          (fun d hd => (hchars f (hmem_tail f hf) d hd).2.2.1),
        stripCore_no quoteChar f (fun d hd => (hchars f (hmem_tail f hf) d hd).2.1)]
    have hhead : stripCore quoteChar (stripCore pySpaceChar e.toList) = e.toList := by
      rw [stripCore_no pySpaceChar e.toList
          (fun c hc => (hchars e.toList hmem_head c hc).2.2.1),
        stripCore_no quoteChar e.toList
          (fun c hc => (hchars e.toList hmem_head c hc).2.1)]
    have hmapstrip : ((e.toList :: (es.map String.toList).map (fun f => ' ' :: f)).map
        (fun el => stripCore quoteChar (stripCore pySpaceChar el))) =
        e.toList :: es.map String.toList := by
      simp only [List.map_cons, hhead, List.map_map]
      congr 1
      refine List.map_congr_left (fun a ha => ?_)
      exact htail a.toList (List.mem_map_of_mem _ ha)
    show (parseBracketListCore (("[" ++ joinCommaSpace (e :: es) ++ "]").toList)).map
        List.asString = e :: es
    rw [htl]
    simp only [parseBracketListCore]
    rw [hstrip, if_neg hjoin_ne, hsplit, hmapstrip]
    simp only [List.map_cons, List.map_map]
    have hid : ∀ a ∈ es, (List.asString ∘ String.toList) a = id a :=
      fun a _ => String.asString_toList a
    rw [List.map_congr_left hid, List.map_id, String.asString_toList]

/-- Witness for C9 on the concrete token `[a, b, c]` and on `[]`. -/
theorem claim9_witness :
    parseBracketList ("[" ++ joinCommaSpace ["a", "b", "c"] ++ "]") = ["a", "b", "c"] ∧
    parseBracketList "[]" = [] :=
  claim9_bracket_token_round_trip ["a", "b", "c"] (by decide)

end Agent
